import Mathlib

/-!
express-jobly: the partial-update SQL builder and the Job model.

A shallow embedding of `helpers/sql.js` (`sqlForPartialUpdate`) and of
`models/job.js` (`Job.findAll`, `Job.get`, `Job.update`, `Job.remove`), with
the JavaScript values they handle, the typed errors they raise and the storage
handle they talk to.

Conventions of the embedding:

* a JavaScript object is the list of its own enumerable string-keyed properties
  in the order in which `Object.keys` enumerates them (`Object.values` uses the
  same order); reading a property falls back to `Object.prototype`;
* `async` functions become state-passing functions over the storage state and
  return `Except JsError _` next to the new state: `throw` is `Except.error`;
* JavaScript numbers are modelled on the integers (`JsValue.num`), which is exact
  for the safe integers; fractions, `NaN` and the infinities are left out.
-/

set_option autoImplicit false
set_option maxRecDepth 100000

namespace Jobly

/-! ## JavaScript values -/

/-- The JavaScript values of the embedding. `fn name` is a built-in function
object (such as `Object.prototype.toString`), `obj` an ordinary object that has
no `toString` of its own. -/
inductive JsValue where
  | undefined
  | null
  | bool (b : Bool)
  | num (n : Int)
  | str (s : String)
  | fn (name : String)
  | obj
  deriving DecidableEq, Repr

/-- The conversion `ToBoolean`, which `if (v)`, `!v` and `v || w` apply: `undefined`,
`null`, `false`, `0` and the empty string are falsy, everything else is truthy. -/
def JsValue.truthy : JsValue → Bool
  | .undefined => false
  | .null => false
  | .bool b => b
  | .num n => n != 0
  | .str s => s != ""
  | .fn _ => true
  | .obj => true

/-- The conversion `ToString`, which a template literal applies to each
substitution. -/
def JsValue.toStr : JsValue → String
  | .undefined => "undefined"
  | .null => "null"
  | .bool b => if b then "true" else "false"
  | .num n => toString n
  | .str s => s
  | .fn name => "function " ++ name ++ "() \x7b [native code] \x7d"
  | .obj => "[object Object]"

/-- A JavaScript object: its own enumerable properties in `Object.keys` order. -/
abbrev JsObject := List (String × JsValue)

/-- `Object.keys(o)`. -/
def JsObject.keys (o : JsObject) : List String := o.map Prod.fst

/-- `Object.values(o)`. -/
def JsObject.values (o : JsObject) : List JsValue := o.map Prod.snd

/-- The properties that every ordinary object inherits from `Object.prototype`:
its methods, and the accessor `__proto__`, which yields the prototype object. -/
def objectPrototype : JsObject :=
  [("constructor", .fn "Object"),
   ("__defineGetter__", .fn "__defineGetter__"),
   ("__defineSetter__", .fn "__defineSetter__"),
   ("hasOwnProperty", .fn "hasOwnProperty"),
   ("__lookupGetter__", .fn "__lookupGetter__"),
   ("__lookupSetter__", .fn "__lookupSetter__"),
   ("isPrototypeOf", .fn "isPrototypeOf"),
   ("propertyIsEnumerable", .fn "propertyIsEnumerable"),
   ("toString", .fn "toString"),
   ("valueOf", .fn "valueOf"),
   ("__proto__", .obj),
   ("toLocaleString", .fn "toLocaleString")]

/-- The property read `o[k]`: the own property when there is one, else the
property inherited from `Object.prototype`, else `undefined`. -/
def JsObject.get (o : JsObject) (k : String) : JsValue :=
  match o.lookup k with
  | some v => v
  | none => (objectPrototype.lookup k).getD .undefined

/-! ## Typed errors (`expressError`) -/

/-- The errors the data-access layer can end with: the two `ExpressError`
subclasses it throws itself, and whatever the storage client rejects with. -/
inductive JsError where
  | badRequest (message : String)
  | notFound (message : String)
  | storage (message : String)
  deriving DecidableEq, Repr

deriving instance DecidableEq for Except

/-! ## `helpers/sql.js` -/

/-- The object `sqlForPartialUpdate` returns. -/
structure SqlUpdate where
  setCols : String
  values : List JsValue
  deriving DecidableEq, Repr

/-- The column name `jsToSql[colName] || colName`, as the template literal
renders it. -/
def columnName (jsToSql : JsObject) (colName : String) : String :=
  if (jsToSql.get colName).truthy then (jsToSql.get colName).toStr else colName

/-- The function `sqlForPartialUpdate(dataToUpdate, jsToSql)`. -/
def sqlForPartialUpdate (dataToUpdate : JsObject) (jsToSql : JsObject) :
    Except JsError SqlUpdate :=
  let keys := dataToUpdate.keys
  if keys.length = 0 then .error (.badRequest "No data")
  else
    let cols := keys.mapIdx fun idx colName =>
      "\"" ++ columnName jsToSql colName ++ "\"=$" ++ toString (idx + 1)
    .ok { setCols := ", ".intercalate cols, values := dataToUpdate.values }

/-! ## The storage handle (`db`) -/

/-- The storage handle of `db.js`, a query executor: `db.query(text, values)`
against a storage in state `σ` answers with the result rows (`result.rows`) or
rejects, and leaves the storage in a new state. A call without `values` is a call
with no bound value. -/
structure Db (σ ρ : Type) where
  query : String → List JsValue → σ → Except JsError (List ρ) × σ

/-- A storage handle that keeps a journal of the statements it is sent, with
their bound values, and answers each of them with `respond`. -/
def journalDb {ρ : Type} (respond : String → List JsValue → Except JsError (List ρ)) :
    Db (List (String × List JsValue)) ρ where
  query text values journal := (respond text values, journal ++ [(text, values)])

/-! ## `models/job.js` -/

/-- The base query of `Job.findAll`. -/
def selectJobs : String :=
  "SELECT id,\n                  title,\n                  salary,\n                  equity,\n                  company_handle AS \"companyHandle\"\n           FROM jobs"

/-- The statement of `Job.get`. -/
def selectJobById : String :=
  "SELECT id,\n                  title,\n                  salary,\n                  equity,\n                  company_handle AS \"companyHandle\"\n           FROM jobs\n           WHERE id = $1"

/-- The statement of `Job.remove`. -/
def deleteJobById : String :=
  "DELETE\n           FROM jobs\n           WHERE id = $1\n           RETURNING id"

/-- The text of the statement of `Job.update` before its first substitution. -/
def updateJobSet : String := "UPDATE jobs \n                      SET "

/-- The text of the statement of `Job.update` between its two substitutions. -/
def updateJobWhere : String := " \n                      WHERE id = "

/-- The text of the statement of `Job.update` after its second substitution. -/
def updateJobReturning : String :=
  " \n                      RETURNING id, \n                                title, \n                                salary,\n                                equity, \n                                company_handle AS \"companyHandle\" "

/-- The statement of `Job.update`, around its two substitutions. -/
def updateJobSql (setCols idVarIdx : String) : String :=
  updateJobSet ++ setCols ++ updateJobWhere ++ idVarIdx ++ updateJobReturning

/-- The first part of `Job.findAll(filters)`, up to its final test: the three
filters are read from `filters`, and each of the three `if`s pushes a bound value
and then a predicate whose placeholder is the number of values pushed so far.
The result is the pair of `queryValues` and `expressions`. -/
def Job.findAllFilters (filters : JsObject) : List JsValue × List String :=
  let title := filters.get "title"
  let minSalary := filters.get "minSalary"
  let hasEquity := filters.get "hasEquity"
  let queryValues : List JsValue := []
  let expressions : List String := []
  let (queryValues, expressions) :=
    if title.truthy then
      let queryValues := queryValues ++ [JsValue.str ("%" ++ title.toStr ++ "%")]
      (queryValues, expressions ++ ["title ILIKE $" ++ toString queryValues.length])
    else (queryValues, expressions)
  let (queryValues, expressions) :=
    if minSalary.truthy then
      let queryValues := queryValues ++ [minSalary]
      (queryValues, expressions ++ ["salary >= $" ++ toString queryValues.length])
    else (queryValues, expressions)
  let (queryValues, expressions) :=
    if hasEquity = JsValue.str "true" then
      let hasEquity := JsValue.num 0
      let queryValues := queryValues ++ [hasEquity]
      (queryValues, expressions ++ ["equity > $" ++ toString queryValues.length])
    else (queryValues, expressions)
  (queryValues, expressions)

/-- The second part of `Job.findAll(filters)`: the statement and the bound values
that it passes to `db.query`. -/
def Job.findAllQuery (filters : JsObject) : String × List JsValue :=
  let (queryValues, expressions) := Job.findAllFilters filters
  let query := selectJobs
  if queryValues.length = 0 then
    (query ++ " ORDER BY id", [])
  else
    (query ++ " WHERE " ++ " AND ".intercalate expressions, queryValues)

/-- The method `Job.findAll(filters = {})`; `none` is a call without argument. -/
def Job.findAll {σ ρ : Type} (db : Db σ ρ) (filters : Option JsObject) (s : σ) :
    Except JsError (List ρ) × σ :=
  let filters := filters.getD []
  let (query, queryValues) := Job.findAllQuery filters
  db.query query queryValues s

/-- The method `Job.get(id)`. -/
def Job.get {σ ρ : Type} (db : Db σ ρ) (id : JsValue) (s : σ) : Except JsError ρ × σ :=
  let (jobRes, s) := db.query selectJobById [id] s
  match jobRes with
  | .error e => (.error e, s)
  | .ok rows =>
    match rows.head? with
    | none => (.error (.notFound ("No job: " ++ id.toStr)), s)
    | some job => (.ok job, s)

/-- The method `Job.update(id, data)`. -/
def Job.update {σ ρ : Type} (db : Db σ ρ) (id : JsValue) (data : JsObject) (s : σ) :
    Except JsError ρ × σ :=
  match sqlForPartialUpdate data [] with
  | .error e => (.error e, s)
  | .ok upd =>
    let idVarIdx := "$" ++ toString (upd.values.length + 1)
    let querySql := updateJobSql upd.setCols idVarIdx
    let (result, s) := db.query querySql (upd.values ++ [id]) s
    match result with
    | .error e => (.error e, s)
    | .ok rows =>
      match rows.head? with
      | none => (.error (.notFound ("No job: " ++ id.toStr)), s)
      | some job => (.ok job, s)

/-- The method `Job.remove(id)`, which returns nothing. -/
def Job.remove {σ ρ : Type} (db : Db σ ρ) (id : JsValue) (s : σ) : Except JsError Unit × σ :=
  let (result, s) := db.query deleteJobById [id] s
  match result with
  | .error e => (.error e, s)
  | .ok rows =>
    match rows.head? with
    | none => (.error (.notFound ("No job: " ++ id.toStr)), s)
    | some _ => (.ok (), s)

/-! ## The jobs table and the statements it is sent

The storage client and the database behind it are not part of the repository.
The model below covers the statements that `models/job.js` issues on the `jobs`
table, and rejects every other text: a bound value is converted to the type of the
column it is compared with or assigned to, a comparison with `NULL` holds of no row,
and a statement that is rejected leaves the table as it was. What depends on the
database server and not on the repository (the case folding of its locale, the
syntax in which it reads numbers from text, the constraints of the table) is a
parameter of the model, the record `Server`. -/

/-- A value of SQL type `NUMERIC`: the decimal number `units / 10 ^ scale`. The
values of the type that are not numbers are left out. -/
structure Decimal where
  units : Int
  scale : Nat
  deriving DecidableEq, Repr

/-- The number a decimal stands for. -/
def Decimal.toRat (d : Decimal) : ℚ := d.units / (10 : ℚ) ^ d.scale

/-- The comparison `a < b` of two decimals, on a common scale. -/
def Decimal.lt (a b : Decimal) : Bool :=
  decide (a.units * 10 ^ b.scale < b.units * 10 ^ a.scale)

/-- Modelled from the spec: a row of the `jobs` table, whose schema file is not
among the sources. The data model of the spec gives a job an id (assigned by the
storage), a title (text), a salary (integer, nullable), an equity (decimal,
nullable) and the handle of its company. -/
structure JobRow where
  id : Int
  title : String
  salary : Option Int
  equity : Option Decimal
  companyHandle : String
  deriving DecidableEq, Repr

/-- What the model takes from the database server as given: the lower-casing of
characters in its locale, which `ILIKE` applies; the numbers it reads from a text
sent for an `INTEGER` and for a `NUMERIC` column (`none` when it rejects the text);
and the constraints on a row of the `jobs` table, the reference to an existing
company among them, which a row must satisfy to be written. -/
structure Server where
  lower : Char → Char
  integerIn : String → Option Int
  numericIn : String → Option Decimal
  check : JobRow → Bool

/-- The double quote. -/
def dquote : Char := Char.ofNat 34

/-- The backslash, the escape character of `LIKE` patterns. -/
def backslash : Char := Char.ofNat 92

/-- Reads the literal `lit` at the start of `s` and returns what follows it. -/
def dropLit : List Char → List Char → Option (List Char)
  | [], s => some s
  | _ :: _, [] => none
  | a :: lit, b :: s => if a = b then dropLit lit s else none

/-- The number written by a list of decimal digits. -/
def digitsValue (ds : List Char) : Nat :=
  ds.foldl (fun n c => 10 * n + (c.toNat - 48)) 0

/-- Reads a non-empty run of decimal digits at the start of `s`. -/
def readNat (s : List Char) : Option (Nat × List Char) :=
  let ds := s.takeWhile Char.isDigit
  if ds = [] then none else some (digitsValue ds, s.dropWhile Char.isDigit)

/-- Reads a decimal integer literal with an optional minus sign: the `integerIn` of
`exampleServer`, a part of what a database server reads as an integer. -/
def readInt (s : List Char) : Option Int :=
  match s with
  | '-' :: ds => if ds ≠ [] ∧ ds.all Char.isDigit then some (-(digitsValue ds : Int)) else none
  | ds => if ds ≠ [] ∧ ds.all Char.isDigit then some (digitsValue ds : Int) else none

/-- Reads a decimal literal, an integer literal optionally followed by a point and
further digits: the `numericIn` of `exampleServer`, a part of what a database server
reads as a number. -/
def readDecimal (s : List Char) : Option Decimal :=
  let whole := s.takeWhile (· ≠ '.')
  match s.dropWhile (· ≠ '.'), readInt whole with
  | [], some n => some ⟨n, 0⟩
  | _ :: frac, some n =>
    if frac ≠ [] ∧ frac.all Char.isDigit then
      let shifted := n.natAbs * 10 ^ frac.length + digitsValue frac
      some ⟨if whole.head? = some '-' then -(shifted : Int) else shifted, frac.length⟩
    else none
  | _, none => none

/-- A bound value sent for an `INTEGER` column (32 bits): `none` when the storage
rejects it, `some none` for `NULL`. The client sends a number and every other
primitive value as its string, which the server reads and holds to the same range.
Objects, which the client would send as their JSON text, are not covered. -/
def pgInteger (server : Server) : JsValue → Option (Option Int)
  | .undefined => some none
  | .null => some none
  | .num n => if -2147483648 ≤ n ∧ n ≤ 2147483647 then some (some n) else none
  | .obj => none
  | v => (server.integerIn v.toStr).bind fun n =>
      if -2147483648 ≤ n ∧ n ≤ 2147483647 then some (some n) else none

/-- A bound value sent for a `NUMERIC` column. -/
def pgNumeric (server : Server) : JsValue → Option (Option Decimal)
  | .undefined => some none
  | .null => some none
  | .num n => some (some ⟨n, 0⟩)
  | .obj => none
  | v => (server.numericIn v.toStr).map some

/-- A bound value sent for a `TEXT` column: the client sends the string of a
primitive value. Objects, which it would send as their JSON text, are not covered,
and a text is not examined for what the encoding of the database excludes (the
character NUL). -/
def pgText : JsValue → Option (Option String)
  | .undefined => some none
  | .null => some none
  | .obj => none
  | v => some (some v.toStr)

/-- Does `k` hold of `t` or of one of its tails? -/
def anyTail (k : List Char → Bool) : List Char → Bool
  | [] => k []
  | c :: t => k (c :: t) || anyTail k t

/-- The items of a `LIKE` pattern: `%` stands for any run of characters, `_` for
any one character, every other character for itself. -/
inductive LikeItem where
  | anyRun
  | anyOne
  | lit (c : Char)
  | invalid
  deriving DecidableEq, Repr

/-- Reads a `LIKE` pattern: a backslash makes the character after it stand for
itself. A pattern that ends in a lone backslash, which the storage rejects, is
given an item that matches nothing. -/
def likeItems : List Char → List LikeItem
  | [] => []
  | p :: ps =>
    if p = '%' then .anyRun :: likeItems ps
    else if p = '_' then .anyOne :: likeItems ps
    else if p = backslash then
      match ps with
      | [] => [.invalid]
      | q :: qs => .lit q :: likeItems qs
    else .lit p :: likeItems ps

/-- Does the text match the items of a pattern, from its first to its last
character? -/
def itemsMatch : List LikeItem → List Char → Bool
  | [], t => t.isEmpty
  | .anyRun :: ps, t => anyTail (itemsMatch ps) t
  | .anyOne :: ps, _ :: u => itemsMatch ps u
  | .lit c :: ps, d :: u => c == d && itemsMatch ps u
  | _, _ => false

/-- The predicate `text LIKE pattern`. -/
def likeMatch (pattern text : List Char) : Bool :=
  itemsMatch (likeItems pattern) text

/-- The predicate `text ILIKE pattern`: `LIKE` on the pattern and the text, both
lower-cased character by character in the locale of the server. -/
def ilike (lower : Char → Char) (text pattern : String) : Bool :=
  likeMatch (pattern.toList.map lower) (text.toList.map lower)

/-- The value bound to the placeholder `$k`. -/
def boundValue (values : List JsValue) (k : Nat) : Option JsValue :=
  if k = 0 then none else values.get? (k - 1)

/-- The predicates of the `WHERE` clause that `Job.findAll` composes, each with
the number of its placeholder. -/
inductive Cond where
  | titleIlike (k : Nat)
  | salaryGe (k : Nat)
  | equityGt (k : Nat)
  deriving DecidableEq, Repr

/-- The statements on the `jobs` table that the model covers. -/
inductive Stmt where
  | selectOrdered
  | selectWhere (conds : List Cond)
  | selectById
  | update (sets : List (String × Nat)) (idParam : Nat)
  | deleteById
  deriving DecidableEq, Repr

/-- Reads one predicate of a `WHERE` clause. -/
def readCond (s : List Char) : Option (Cond × List Char) :=
  match dropLit "title ILIKE $".toList s with
  | some r => (readNat r).map fun (k, r) => (.titleIlike k, r)
  | none =>
    match dropLit "salary >= $".toList s with
    | some r => (readNat r).map fun (k, r) => (.salaryGe k, r)
    | none =>
      match dropLit "equity > $".toList s with
      | some r => (readNat r).map fun (k, r) => (.equityGt k, r)
      | none => none

/-- Reads predicates joined by ` AND ` up to the end of the text. -/
def readConds : Nat → List Char → Option (List Cond)
  | 0, _ => none
  | fuel + 1, s =>
    match readCond s with
    | none => none
    | some (c, []) => some [c]
    | some (c, r) =>
      match dropLit " AND ".toList r with
      | none => none
      | some r => (readConds fuel r).map (c :: ·)

/-- Reads one assignment, a quoted column name followed by `=` and a placeholder. -/
def readAssign (s : List Char) : Option ((String × Nat) × List Char) :=
  match dropLit [dquote] s with
  | none => none
  | some r =>
    let col := r.takeWhile (· ≠ dquote)
    match dropLit [dquote, '=', '$'] (r.dropWhile (· ≠ dquote)) with
    | none => none
    | some r => (readNat r).map fun (k, r) => ((String.mk col, k), r)

/-- Reads assignments joined by `, ` and returns them with what follows the last. -/
def readAssigns : Nat → List Char → Option (List (String × Nat) × List Char)
  | 0, _ => none
  | fuel + 1, s =>
    match readAssign s with
    | none => none
    | some (a, r) =>
      match dropLit ", ".toList r with
      | none => some ([a], r)
      | some r => (readAssigns fuel r).map fun (as, r) => (a :: as, r)

/-- Reads an `UPDATE` statement of the shape `updateJobSql` gives it. -/
def readUpdate (s : List Char) : Option Stmt :=
  match dropLit updateJobSet.toList s with
  | none => none
  | some r =>
    match readAssigns (r.length + 1) r with
    | none => none
    | some (sets, r) =>
      match dropLit (updateJobWhere ++ "$").toList r with
      | none => none
      | some r =>
        match readNat r with
        | none => none
        | some (k, r) => if r = updateJobReturning.toList then some (.update sets k) else none

/-- Reads a statement. -/
def readStmt (text : String) : Option Stmt :=
  if text = selectJobs ++ " ORDER BY id" then some .selectOrdered
  else if text = selectJobById then some .selectById
  else if text = deleteJobById then some .deleteById
  else
    match dropLit (selectJobs ++ " WHERE ").toList text.toList with
    | some r => (readConds (r.length + 1) r).map .selectWhere
    | none => readUpdate text.toList

/-- Converts every element of a list, or fails when one conversion fails. -/
def convertAll {α β : Type} (f : α → Option β) : List α → Option (List β)
  | [] => some []
  | a :: as =>
    match f a, convertAll f as with
    | some b, some bs => some (b :: bs)
    | _, _ => none

/-- A predicate of a `WHERE` clause with its bound value, converted to the type of
the column (`none` is `NULL`). -/
inductive Pred where
  | titleIlike (pattern : Option String)
  | salaryGe (n : Option Int)
  | equityGt (d : Option Decimal)
  deriving DecidableEq, Repr

/-- Binds the placeholder of a predicate; fails when there is no such bound value
or the storage rejects it for the column. -/
def bindCond (server : Server) (values : List JsValue) : Cond → Option Pred
  | .titleIlike k => ((boundValue values k).bind pgText).map .titleIlike
  | .salaryGe k => ((boundValue values k).bind (pgInteger server)).map .salaryGe
  | .equityGt k => ((boundValue values k).bind (pgNumeric server)).map .equityGt

/-- Does the predicate hold of the row? A comparison in which the bound value or
the column is `NULL` does not. -/
def Pred.holds (server : Server) : Pred → JobRow → Bool
  | .titleIlike (some pattern), r => ilike server.lower r.title pattern
  | .salaryGe (some n), r =>
    match r.salary with
    | some s => decide (n ≤ s)
    | none => false
  | .equityGt (some d), r =>
    match r.equity with
    | some e => d.lt e
    | none => false
  | _, _ => false

/-- An assignment of a `SET` clause with its bound value, converted to the type of
the column. -/
inductive Assign where
  | id (v : Int)
  | title (v : String)
  | salary (v : Option Int)
  | equity (v : Option Decimal)
  | companyHandle (v : String)
  deriving DecidableEq, Repr

/-- Converts the value of an assignment to the type of its column. The columns of
the table are `id`, `title`, `salary`, `equity` and `company_handle`, of which
`salary` and `equity` take `NULL`; an assignment to any other name is rejected. -/
def convertAssign (server : Server) (column : String) (v : JsValue) : Option Assign :=
  if column = "id" then
    match pgInteger server v with
    | some (some n) => some (.id n)
    | _ => none
  else if column = "title" then
    match pgText v with
    | some (some t) => some (.title t)
    | _ => none
  else if column = "salary" then (pgInteger server v).map .salary
  else if column = "equity" then (pgNumeric server v).map .equity
  else if column = "company_handle" then
    match pgText v with
    | some (some h) => some (.companyHandle h)
    | _ => none
  else none

/-- Binds the placeholder of an assignment; fails when there is no such bound value
or the storage rejects it for the column. -/
def bindAssign (server : Server) (values : List JsValue) (a : String × Nat) :
    Option Assign :=
  (boundValue values a.2).bind (convertAssign server a.1)

/-- The row after an assignment. -/
def Assign.apply : Assign → JobRow → JobRow
  | .id v, r => { r with id := v }
  | .title v, r => { r with title := v }
  | .salary v, r => { r with salary := v }
  | .equity v, r => { r with equity := v }
  | .companyHandle v, r => { r with companyHandle := v }

/-- The row after the assignments of a `SET` clause. -/
def applyAll (as : List Assign) (r : JobRow) : JobRow :=
  as.foldl (fun r a => a.apply r) r

/-- The order of `ORDER BY id`. -/
def JobRow.le (a b : JobRow) : Prop := a.id ≤ b.id

instance : DecidableRel JobRow.le := fun a b => inferInstanceAs (Decidable (a.id ≤ b.id))

/-- Runs a statement on the table: the rows it returns, or the rejection, and the
table afterwards. A `SELECT` without `ORDER BY` returns its rows in table order; the
rows that `DELETE ... RETURNING id` returns are given in full. An `UPDATE` is
rejected when a row it writes breaks a constraint or when two rows of the table
would have the same id, the primary key. -/
def runStmt (server : Server) (stmt : Stmt) (values : List JsValue)
    (table : List JobRow) : Except JsError (List JobRow) × List JobRow :=
  match stmt with
  | .selectOrdered => (.ok (table.insertionSort JobRow.le), table)
  | .selectWhere conds =>
    match convertAll (bindCond server values) conds with
    | none => (.error (.storage "invalid input value"), table)
    | some preds =>
      (.ok (table.filter fun r => preds.all fun p => p.holds server r), table)
  | .selectById =>
    match (boundValue values 1).bind (pgInteger server) with
    | none => (.error (.storage "invalid input value"), table)
    | some id => (.ok (table.filter fun r => decide (id = some r.id)), table)
  | .deleteById =>
    match (boundValue values 1).bind (pgInteger server) with
    | none => (.error (.storage "invalid input value"), table)
    | some id =>
      (.ok (table.filter fun r => decide (id = some r.id)),
        table.filter fun r => !decide (id = some r.id))
  | .update sets k =>
    match convertAll (bindAssign server values) sets,
      (boundValue values k).bind (pgInteger server) with
    | some as, some id =>
      if (sets.map Prod.fst).Nodup then
        let written := (table.filter fun r => decide (id = some r.id)).map (applyAll as)
        let after := table.map fun r => if id = some r.id then applyAll as r else r
        if written.all server.check ∧ (after.map JobRow.id).Nodup then
          (.ok written, after)
        else (.error (.storage "constraint violated"), table)
      else (.error (.storage "multiple assignments to same column"), table)
    | _, _ => (.error (.storage "invalid input value"), table)

/-- The storage handle on a `jobs` table: the state of the storage is the list of
the rows of the table. -/
def jobsDb (server : Server) : Db (List JobRow) JobRow where
  query text values table :=
    match readStmt text with
    | none => (.error (.storage "syntax error"), table)
    | some stmt => runStmt server stmt values table

/-- A server for the examples: it lower-cases the letters `A` to `Z`, reads plain
decimal literals and has no constraint on the rows. -/
def exampleServer : Server where
  lower := Char.toLower
  integerIn s := readInt s.toList
  numericIn s := readDecimal s.toList
  check _ := true

/-- A server for the examples whose locale also lower-cases the letter `É`. -/
def latinServer : Server where
  lower c := if c = Char.ofNat 201 then Char.ofNat 233 else c.toLower
  integerIn s := readInt s.toList
  numericIn s := readDecimal s.toList
  check _ := true

/-! ## Definitions that the statements below use -/

/-- The column name as the claim words it: the value the alias mapping has for
the field when it has an entry for it, the field name otherwise. -/
def specColumnName (jsToSql : JsObject) (colName : String) : String :=
  match jsToSql.lookup colName with
  | some v => v.toStr
  | none => colName

/-- The assignment expression of the field `colName` at position `idx` (from 0). -/
def assignment (jsToSql : JsObject) (idx : Nat) (colName : String) : String :=
  "\"" ++ columnName jsToSql colName ++ "\"=$" ++ toString (idx + 1)

/-- A filter of `Job.findAll` counts as supplied, in the plain sense, when the
filters object gives it a value. -/
def supplied (filters : JsObject) (name : String) : Bool :=
  filters.get name != JsValue.undefined

/-- The clauses of the supplied filters as the claim words them, in the order
title, minSalary, hasEquity: the predicate up to the number of its placeholder, and
the value bound to it. The hasEquity filter counts when it is the string `"true"`. -/
def suppliedClauses (filters : JsObject) : List (String × JsValue) :=
  (if supplied filters "title" then
    [("title ILIKE $", JsValue.str ("%" ++ (filters.get "title").toStr ++ "%"))] else []) ++
  (if supplied filters "minSalary" then
    [("salary >= $", filters.get "minSalary")] else []) ++
  (if filters.get "hasEquity" = JsValue.str "true" then
    [("equity > $", JsValue.num 0)] else [])

/-- The clauses of the filters that take effect, in the order title, minSalary,
hasEquity: a title and a minSalary that are truthy, and a hasEquity that is the
string `"true"`. -/
def effectiveClauses (filters : JsObject) : List (String × JsValue) :=
  (if (filters.get "title").truthy then
    [("title ILIKE $", JsValue.str ("%" ++ (filters.get "title").toStr ++ "%"))] else []) ++
  (if (filters.get "minSalary").truthy then
    [("salary >= $", filters.get "minSalary")] else []) ++
  (if filters.get "hasEquity" = JsValue.str "true" then
    [("equity > $", JsValue.num 0)] else [])

/-- The statement for a list of predicates, each given up to the number of its
placeholder: the base `SELECT`, then ` WHERE ` and the predicates joined by ` AND `,
the `k`-th of them (from 1) with the placeholder `$k`. -/
def whereText (predicates : List String) : String :=
  selectJobs ++ " WHERE " ++
    " AND ".intercalate (predicates.mapIdx fun k p => p ++ toString (k + 1))

/-- The statement and the bound values for a list of clauses: the values are those
of the clauses, in order. -/
def whereQuery (clauses : List (String × JsValue)) : String × List JsValue :=
  (whereText (clauses.map Prod.fst), clauses.map Prod.snd)

/-- Does `Job.findAll(filters)` select the row: each filter that takes effect must
hold of it. -/
def Job.selects (server : Server) (filters : JsObject) (r : JobRow) : Bool :=
  (!(filters.get "title").truthy ||
    ilike server.lower r.title ("%" ++ (filters.get "title").toStr ++ "%")) &&
  (!(filters.get "minSalary").truthy ||
    (match pgInteger server (filters.get "minSalary"), r.salary with
      | some (some n), some s => decide (n ≤ s)
      | _, _ => false)) &&
  (!decide (filters.get "hasEquity" = JsValue.str "true") ||
    (match r.equity with
      | some e => Decimal.lt ⟨0, 0⟩ e
      | none => false))

/-- The text contains the needle as a substring, compared without regard to case:
the lower-cased needle is a part of the lower-cased text, for the lower-casing
`lower` of the characters. -/
def containsIgnoreCase (lower : Char → Char) (text needle : String) : Prop :=
  needle.toList.map lower <:+: text.toList.map lower

instance (lower : Char → Char) (text needle : String) :
    Decidable (containsIgnoreCase lower text needle) :=
  inferInstanceAs (Decidable (_ <:+: _))

/-- The characters with a special meaning in a `LIKE` pattern. -/
def likeSpecial (c : Char) : Prop := c = '%' ∨ c = '_' ∨ c = backslash

instance (c : Char) : Decidable (likeSpecial c) :=
  inferInstanceAs (Decidable (_ ∨ _ ∨ _))

/-- The lower-casing leaves the special characters of a `LIKE` pattern as they are
and makes no other character one of them, as a lower-casing that changes letters
only does. -/
def keepsLikeSpecial (lower : Char → Char) : Prop :=
  (∀ c, likeSpecial c → lower c = c) ∧ ∀ c, ¬ likeSpecial c → ¬ likeSpecial (lower c)

/-- The three jobs of the test suite (`j1`, `j2`, `j3`), followed by a job without
salary and equity. -/
def exampleJobs : List JobRow :=
  [⟨1, "j1", some 100000, some ⟨0, 0⟩, "c1"⟩,
   ⟨2, "j2", some 90000, some ⟨0, 0⟩, "c2"⟩,
   ⟨3, "j3", some 80000, some ⟨3, 1⟩, "c3"⟩,
   ⟨4, "j4", none, none, "c1"⟩]

/-- Two jobs, the title of the first with the capital letter `É`. -/
def latinJobs : List JobRow :=
  [⟨1, "Élan", some 50000, none, "c1"⟩, ⟨2, "plan", some 60000, none, "c2"⟩]

/-- The filters `{title: "é"}`. -/
def latinFilters : JsObject := [("title", .str "é")]

/-- The filters `{minSalary: 95000}` of the test suite. -/
def minSalaryFilters : JsObject := [("minSalary", .num 95000)]

/-- The filters `{title: "J1"}`. -/
def titleFilters : JsObject := [("title", .str "J1")]

/-- The filters `{hasEquity: "true"}` of the test suite. -/
def hasEquityFilters : JsObject := [("hasEquity", .str "true")]

/-- The data `{salary: null, equity: null}` of the test suite. -/
def nullFields : JsObject := [("salary", .null), ("equity", .null)]

/-- The data `{salary: 5, equity: "\"; DROP TABLE jobs; --"}`: the fields of
`nullFields` with other values, one of them text that would end a quoted name and
start a statement of its own if it were spliced into the statement. -/
def injectionFields : JsObject :=
  [("salary", .num 5), ("equity", .str "\"; DROP TABLE jobs; --")]

/-! # Theorems -/

/-! ## Properties of `sqlForPartialUpdate` -/

theorem sqlForPartialUpdate_of_ne_nil (dataToUpdate jsToSql : JsObject)
    (h : dataToUpdate ≠ []) :
    sqlForPartialUpdate dataToUpdate jsToSql =
      .ok ⟨", ".intercalate (dataToUpdate.keys.mapIdx (assignment jsToSql)),
        dataToUpdate.values⟩ := by
  have hk : dataToUpdate.keys.length ≠ 0 := by
    simpa [JsObject.keys] using h
  simp only [sqlForPartialUpdate, hk, if_false]
  rfl

theorem sqlForPartialUpdate_nil (jsToSql : JsObject) :
    sqlForPartialUpdate [] jsToSql = .error (.badRequest "No data") := rfl

/-- C1: for a non-empty data mapping with `n` fields, `setCols` is the join by `", "`
of exactly `n` assignment expressions, the `i`-th of which (from 1) is
`"<column of the i-th field>"=$i` in key order, and `values` are the `n` values of
the data mapping in the same order, the `i`-th one belonging to `$i`. -/
theorem sqlForPartialUpdate_setCols_values (dataToUpdate jsToSql : JsObject)
    (h : dataToUpdate ≠ []) :
    ∃ cols : List String,
      sqlForPartialUpdate dataToUpdate jsToSql =
        .ok ⟨", ".intercalate cols, dataToUpdate.map Prod.snd⟩ ∧
      cols.length = dataToUpdate.length ∧
      (dataToUpdate.map Prod.snd).length = dataToUpdate.length ∧
      ∀ i field value, dataToUpdate[i]? = some (field, value) →
        cols[i]? = some ("\"" ++ columnName jsToSql field ++ "\"=$" ++ toString (i + 1)) ∧
        (dataToUpdate.map Prod.snd)[i]? = some value := by
  refine ⟨dataToUpdate.keys.mapIdx (assignment jsToSql),
    sqlForPartialUpdate_of_ne_nil dataToUpdate jsToSql h, by simp [JsObject.keys], by simp, ?_⟩
  intro i field value hi
  constructor
  · simp [JsObject.keys, List.getElem?_mapIdx, hi, assignment]
  · simp [hi]

theorem sqlForPartialUpdate_setCols_values_witness :
    ∃ cols : List String,
      sqlForPartialUpdate [("firstName", .str "Aliya"), ("age", .num 32)]
          [("firstName", .str "first_name"), ("age", .str "age")] =
        .ok ⟨", ".intercalate cols,
          List.map Prod.snd [("firstName", JsValue.str "Aliya"), ("age", JsValue.num 32)]⟩ ∧
      cols.length = [("firstName", JsValue.str "Aliya"), ("age", JsValue.num 32)].length ∧
      (List.map Prod.snd
        [("firstName", JsValue.str "Aliya"), ("age", JsValue.num 32)]).length =
        [("firstName", JsValue.str "Aliya"), ("age", JsValue.num 32)].length ∧
      ∀ i field value,
        [("firstName", JsValue.str "Aliya"), ("age", JsValue.num 32)][i]? =
          some (field, value) →
        cols[i]? = some ("\"" ++
          columnName [("firstName", .str "first_name"), ("age", .str "age")] field ++
          "\"=$" ++ toString (i + 1)) ∧
        (List.map Prod.snd
          [("firstName", JsValue.str "Aliya"), ("age", JsValue.num 32)])[i]? = some value :=
  sqlForPartialUpdate_setCols_values _ _ (by decide)

/-- C2: `sqlForPartialUpdate` ends with a `BadRequestError` exactly when the data
mapping has no field, whatever the alias mapping, and returns a result exactly when
the data mapping has a field. -/
theorem sqlForPartialUpdate_badRequest_iff (dataToUpdate jsToSql : JsObject) :
    ((∃ message, sqlForPartialUpdate dataToUpdate jsToSql = .error (.badRequest message)) ↔
      dataToUpdate = []) ∧
    ((∃ result, sqlForPartialUpdate dataToUpdate jsToSql = .ok result) ↔
      dataToUpdate ≠ []) := by
  by_cases h : dataToUpdate = []
  · subst h
    simp [sqlForPartialUpdate_nil]
  · simp [sqlForPartialUpdate_of_ne_nil _ _ h, h]

theorem columnName_of_truthy (jsToSql : JsObject) (colName : String) (v : JsValue)
    (h : jsToSql.lookup colName = some v) (hv : v.truthy = true) :
    columnName jsToSql colName = v.toStr := by
  simp [columnName, JsObject.get, h, hv]

theorem columnName_of_falsy (jsToSql : JsObject) (colName : String) (v : JsValue)
    (h : jsToSql.lookup colName = some v) (hv : v.truthy = false) :
    columnName jsToSql colName = colName := by
  simp [columnName, JsObject.get, h, hv]

theorem columnName_of_absent (jsToSql : JsObject) (colName : String)
    (h : jsToSql.lookup colName = none) (hp : objectPrototype.lookup colName = none) :
    columnName jsToSql colName = colName := by
  simp [columnName, JsObject.get, h, hp, JsValue.truthy]

/-- C3, as the claim states it, fails: the alias mapping `{a: ""}` has an entry for
the field `a`, and the column between the quotes is the field name `a`, not the
value `""` of that entry. -/
theorem sqlForPartialUpdate_alias_counterexample :
    List.lookup "a" ([("a", JsValue.str "")] : JsObject) = some (JsValue.str "") ∧
    specColumnName [("a", .str "")] "a" = "" ∧
    sqlForPartialUpdate [("a", .num 1)] [("a", .str "")] = .ok ⟨"\"a\"=$1", [.num 1]⟩ ∧
    sqlForPartialUpdate [("a", .num 1)] [("a", .str "")] ≠
      .ok ⟨"\"" ++ specColumnName [("a", .str "")] "a" ++ "\"=$1", [.num 1]⟩ := by
  refine ⟨by decide, by decide, by decide, by decide⟩

/-- C3, amended: in the assignment of each field of a non-empty data mapping, the
column between the double quotes is the alias mapping's value for the field when
that value is truthy (for a string: not empty), and the field name itself when the
alias mapping's value for the field is falsy (the empty string) or when neither the
alias mapping nor `Object.prototype` has a property of that name. -/
theorem sqlForPartialUpdate_column (dataToUpdate jsToSql : JsObject)
    (h : dataToUpdate ≠ []) :
    ∃ cols : List String,
      sqlForPartialUpdate dataToUpdate jsToSql =
        .ok ⟨", ".intercalate cols, dataToUpdate.map Prod.snd⟩ ∧
      ∀ i field value, dataToUpdate[i]? = some (field, value) →
        ∃ column : String,
          cols[i]? = some ("\"" ++ column ++ "\"=$" ++ toString (i + 1)) ∧
          (∀ v, jsToSql.lookup field = some v → v.truthy = true → column = v.toStr) ∧
          (∀ s, jsToSql.lookup field = some (.str s) → s ≠ "" → column = s) ∧
          (∀ v, jsToSql.lookup field = some v → v.truthy = false → column = field) ∧
          (jsToSql.lookup field = none → objectPrototype.lookup field = none →
            column = field) := by
  refine ⟨dataToUpdate.keys.mapIdx (assignment jsToSql),
    sqlForPartialUpdate_of_ne_nil dataToUpdate jsToSql h, ?_⟩
  intro i field value hi
  refine ⟨columnName jsToSql field, ?_, ?_, ?_, ?_, ?_⟩
  · simp [JsObject.keys, List.getElem?_mapIdx, hi, assignment]
  · exact fun v hv ht => columnName_of_truthy jsToSql field v hv ht
  · intro s hs hne
    have := columnName_of_truthy jsToSql field (.str s) hs (by simpa [JsValue.truthy] using hne)
    simpa [JsValue.toStr] using this
  · exact fun v hv ht => columnName_of_falsy jsToSql field v hv ht
  · exact fun hn hp => columnName_of_absent jsToSql field hn hp

theorem sqlForPartialUpdate_column_witness :
    ∃ cols : List String,
      sqlForPartialUpdate [("firstName", .str "Aliya"), ("age", .num 32)]
          [("firstName", .str "first_name")] =
        .ok ⟨", ".intercalate cols,
          List.map Prod.snd [("firstName", JsValue.str "Aliya"), ("age", JsValue.num 32)]⟩ ∧
      ∀ i field value,
        [("firstName", JsValue.str "Aliya"), ("age", JsValue.num 32)][i]? =
          some (field, value) →
        ∃ column : String,
          cols[i]? = some ("\"" ++ column ++ "\"=$" ++ toString (i + 1)) ∧
          (∀ v, List.lookup field [("firstName", JsValue.str "first_name")] = some v →
            v.truthy = true → column = v.toStr) ∧
          (∀ s, List.lookup field [("firstName", JsValue.str "first_name")] =
            some (.str s) → s ≠ "" → column = s) ∧
          (∀ v, List.lookup field [("firstName", JsValue.str "first_name")] = some v →
            v.truthy = false → column = field) ∧
          (List.lookup field [("firstName", JsValue.str "first_name")] = none →
            objectPrototype.lookup field = none → column = field) :=
  sqlForPartialUpdate_column _ _ (by decide)

/-! ## Properties of `Job.findAll` -/

theorem findAllQuery_eq_whereQuery (filters : JsObject) (h : effectiveClauses filters ≠ []) :
    Job.findAllQuery filters = whereQuery (effectiveClauses filters) := by
  unfold effectiveClauses at h ⊢
  unfold Job.findAllQuery Job.findAllFilters whereQuery whereText
  by_cases h1 : (filters.get "title").truthy = true <;>
  by_cases h2 : (filters.get "minSalary").truthy = true <;>
  by_cases h3 : filters.get "hasEquity" = JsValue.str "true" <;>
  simp [h1, h2, h3] at h ⊢

theorem findAllQuery_of_no_effective (filters : JsObject) (h : effectiveClauses filters = []) :
    Job.findAllQuery filters = (selectJobs ++ " ORDER BY id", []) := by
  unfold effectiveClauses at h
  unfold Job.findAllQuery Job.findAllFilters
  by_cases h1 : (filters.get "title").truthy = true <;>
  by_cases h2 : (filters.get "minSalary").truthy = true <;>
  by_cases h3 : filters.get "hasEquity" = JsValue.str "true" <;>
  simp [h1, h2, h3] at h ⊢

theorem findAll_eq_query {σ ρ : Type} (db : Db σ ρ) (filters : JsObject) (s : σ) :
    Job.findAll db (some filters) s =
      db.query (Job.findAllQuery filters).1 (Job.findAllQuery filters).2 s := rfl

theorem readStmt_whereText :
    readStmt (whereText ["title ILIKE $", "salary >= $", "equity > $"]) =
      some (.selectWhere [.titleIlike 1, .salaryGe 2, .equityGt 3]) ∧
    readStmt (whereText ["title ILIKE $", "salary >= $"]) =
      some (.selectWhere [.titleIlike 1, .salaryGe 2]) ∧
    readStmt (whereText ["title ILIKE $", "equity > $"]) =
      some (.selectWhere [.titleIlike 1, .equityGt 2]) ∧
    readStmt (whereText ["title ILIKE $"]) = some (.selectWhere [.titleIlike 1]) ∧
    readStmt (whereText ["salary >= $", "equity > $"]) =
      some (.selectWhere [.salaryGe 1, .equityGt 2]) ∧
    readStmt (whereText ["salary >= $"]) = some (.selectWhere [.salaryGe 1]) ∧
    readStmt (whereText ["equity > $"]) = some (.selectWhere [.equityGt 1]) := by
  refine ⟨?_, ?_, ?_, ?_, ?_, ?_, ?_⟩ <;> decide

theorem findAll_jobsDb_of_effective (server : Server) (filters : JsObject)
    (table : List JobRow) (h : effectiveClauses filters ≠ []) :
    Job.findAll (jobsDb server) (some filters) table =
      if (filters.get "minSalary").truthy = true ∧
          pgInteger server (filters.get "minSalary") = none then
        (.error (.storage "invalid input value"), table)
      else (.ok (table.filter (Job.selects server filters)), table) := by
  rw [findAll_eq_query, findAllQuery_eq_whereQuery filters h]
  obtain ⟨r1, r2, r3, r4, r5, r6, r7⟩ := readStmt_whereText
  unfold effectiveClauses at h ⊢
  by_cases h1 : (filters.get "title").truthy = true <;>
  by_cases h2 : (filters.get "minSalary").truthy = true <;>
  by_cases h3 : filters.get "hasEquity" = JsValue.str "true" <;>
  simp only [h1, h2, h3, if_true, if_false, List.nil_append, List.append_nil, List.singleton_append, not_true_eq_false, ne_eq, not_false_eq_true, Bool.false_eq_true, List.cons_append] at h ⊢
  all_goals
    simp only [jobsDb, whereQuery, List.map, r1, r2, r3, r4, r5, r6, r7, runStmt, convertAll,
      bindCond, boundValue]
    rcases hm : pgInteger server (filters.get "minSalary") with _ | m <;>
    simp [pgText, pgNumeric, hm, h1, h2, h3]
  all_goals
    refine congrArg (fun f => List.filter f table) (funext fun r => ?_)
    have hstr : ∀ s : String, (JsValue.str s).toStr = s := fun _ => rfl
    first
      | simp [Job.selects, Pred.holds, hstr, hm, h1, h2, h3]; done
      | (obtain ⟨_, _, salary, _, _⟩ := r
         cases m <;> cases salary <;>
           simp [Job.selects, Pred.holds, hstr, hm, h1, h2, h3, Bool.and_assoc])

theorem readStmt_selectOrdered :
    readStmt (selectJobs ++ " ORDER BY id") = some .selectOrdered := by decide

theorem findAll_jobsDb_of_no_effective (server : Server) (filters : JsObject)
    (table : List JobRow) (h : effectiveClauses filters = []) :
    Job.findAll (jobsDb server) (some filters) table =
      (.ok (table.insertionSort JobRow.le), table) := by
  rw [findAll_eq_query, findAllQuery_of_no_effective filters h]
  simp only [jobsDb, readStmt_selectOrdered, runStmt]

/-- C4, as the claim states it, fails: with the filters `{minSalary: 0, hasEquity:
"true"}` two filters are supplied, and the statement holds the predicate of the
second only, with the placeholder `$1` and a single bound value. -/
theorem findAll_supplied_counterexample :
    suppliedClauses [("minSalary", .num 0), ("hasEquity", .str "true")] =
      [("salary >= $", .num 0), ("equity > $", .num 0)] ∧
    whereQuery (suppliedClauses [("minSalary", .num 0), ("hasEquity", .str "true")]) =
      (selectJobs ++ " WHERE salary >= $1 AND equity > $2", [.num 0, .num 0]) ∧
    Job.findAllQuery [("minSalary", .num 0), ("hasEquity", .str "true")] =
      (selectJobs ++ " WHERE equity > $1", [.num 0]) ∧
    Job.findAllQuery [("minSalary", .num 0), ("hasEquity", .str "true")] ≠
      whereQuery (suppliedClauses [("minSalary", .num 0), ("hasEquity", .str "true")]) := by
  refine ⟨by decide, by decide, by decide, by decide⟩

/-- C4, amended: when at least one filter takes effect (a truthy title, a truthy
minSalary, a hasEquity that is the string `"true"`), the statement of `Job.findAll`
is the base `SELECT` followed by ` WHERE ` and the ` AND `-conjunction of the
predicates of exactly the filters that take effect, in the order title, minSalary,
hasEquity; the `k`-th predicate uses the placeholder `$k`, and the bound values are
one per predicate, the `k`-th being the one pushed for the `k`-th predicate. -/
theorem findAll_where_clauses (filters : JsObject) (h : effectiveClauses filters ≠ []) :
    ∃ predicates : List String,
      Job.findAllQuery filters =
        (selectJobs ++ " WHERE " ++ " AND ".intercalate predicates,
          (effectiveClauses filters).map Prod.snd) ∧
      (∀ (σ ρ : Type) (db : Db σ ρ) (s : σ), Job.findAll db (some filters) s =
        db.query (selectJobs ++ " WHERE " ++ " AND ".intercalate predicates)
          ((effectiveClauses filters).map Prod.snd) s) ∧
      predicates.length = (effectiveClauses filters).length ∧
      ((effectiveClauses filters).map Prod.snd).length = (effectiveClauses filters).length ∧
      ∀ k predicate value, (effectiveClauses filters)[k]? = some (predicate, value) →
        predicates[k]? = some (predicate ++ toString (k + 1)) ∧
        ((effectiveClauses filters).map Prod.snd)[k]? = some value := by
  have hq := findAllQuery_eq_whereQuery filters h
  refine ⟨((effectiveClauses filters).map Prod.fst).mapIdx fun k p => p ++ toString (k + 1),
    hq, ?_, by simp, by simp, ?_⟩
  · intro σ ρ db s
    rw [findAll_eq_query, hq]
    rfl
  · intro k predicate value hk
    simp [List.getElem?_mapIdx, hk]

theorem findAll_where_clauses_witness :
    ∃ predicates : List String,
      Job.findAllQuery [("title", .str "3"), ("minSalary", .num 80000)] =
        (selectJobs ++ " WHERE " ++ " AND ".intercalate predicates,
          (effectiveClauses [("title", .str "3"), ("minSalary", .num 80000)]).map Prod.snd) ∧
      (∀ (σ ρ : Type) (db : Db σ ρ) (s : σ),
        Job.findAll db (some [("title", .str "3"), ("minSalary", .num 80000)]) s =
        db.query (selectJobs ++ " WHERE " ++ " AND ".intercalate predicates)
          ((effectiveClauses [("title", .str "3"), ("minSalary", .num 80000)]).map Prod.snd)
          s) ∧
      predicates.length =
        (effectiveClauses [("title", .str "3"), ("minSalary", .num 80000)]).length ∧
      ((effectiveClauses [("title", .str "3"), ("minSalary", .num 80000)]).map
        Prod.snd).length =
        (effectiveClauses [("title", .str "3"), ("minSalary", .num 80000)]).length ∧
      ∀ k predicate value,
        (effectiveClauses [("title", .str "3"), ("minSalary", .num 80000)])[k]? =
          some (predicate, value) →
        predicates[k]? = some (predicate ++ toString (k + 1)) ∧
        ((effectiveClauses [("title", .str "3"), ("minSalary", .num 80000)]).map
          Prod.snd)[k]? = some value :=
  findAll_where_clauses _ (by decide)

theorem insertionSort_le_pairwise (table : List JobRow) :
    (table.insertionSort JobRow.le).Pairwise (fun a b => a.id ≤ b.id) :=
  @List.sorted_insertionSort JobRow JobRow.le _
    ⟨fun a b => Int.le_total a.id b.id⟩ ⟨fun _ _ _ hab hbc => Int.le_trans hab hbc⟩ table

/-- C5: `Job.findAll` without filters (no argument, or an empty filters object)
sends the base `SELECT` with ` ORDER BY id` appended, without `WHERE` clause and
without bound values, and the rows it returns are all the jobs of the table, by
ascending id; the table is left as it was. -/
theorem findAll_no_filters (server : Server) (table : List JobRow) :
    Job.findAllQuery [] = (selectJobs ++ " ORDER BY id", []) ∧
    ¬ "WHERE".toList <:+: (selectJobs ++ " ORDER BY id").toList ∧
    (∀ (σ ρ : Type) (db : Db σ ρ) (s : σ),
      Job.findAll db none s = db.query (selectJobs ++ " ORDER BY id") [] s ∧
      Job.findAll db (some []) s = db.query (selectJobs ++ " ORDER BY id") [] s) ∧
    ∃ rows : List JobRow,
      Job.findAll (jobsDb server) none table = (.ok rows, table) ∧
      Job.findAll (jobsDb server) (some []) table = (.ok rows, table) ∧
      rows.Perm table ∧
      rows.Pairwise (fun a b => a.id ≤ b.id) := by
  refine ⟨by decide, by decide, fun σ ρ db s => ⟨rfl, rfl⟩, table.insertionSort JobRow.le,
    findAll_jobsDb_of_no_effective server [] table (by decide),
    findAll_jobsDb_of_no_effective server [] table (by decide),
    List.perm_insertionSort _ _, insertionSort_le_pairwise table⟩

theorem effectiveClauses_ne_nil_of_minSalary (filters : JsObject)
    (h : (filters.get "minSalary").truthy = true) : effectiveClauses filters ≠ [] := by
  simp [effectiveClauses, h]

theorem salary_of_selects (server : Server) (filters : JsObject) (n : Int) (r : JobRow)
    (hn : filters.get "minSalary" = .num n) (h0 : n ≠ 0)
    (h : Job.selects server filters r = true) :
    ∃ s, r.salary = some s ∧ n ≤ s := by
  obtain ⟨_, _, salary, _, _⟩ := r
  have ht : (JsValue.num n).truthy = true := by simpa [JsValue.truthy] using h0
  simp only [Job.selects, hn, ht, Bool.not_true, Bool.false_or, Bool.and_eq_true] at h
  obtain ⟨⟨_, hs⟩, _⟩ := h
  cases salary with
  | none =>
    revert hs
    cases pgInteger server (JsValue.num n) <;> simp
  | some s =>
    by_cases hr : -2147483648 ≤ n ∧ n ≤ 2147483647
    · simpa [pgInteger, hr] using hs
    · simp [pgInteger, hr] at hs

/-- C6, as the claim states it, fails for the threshold `0`: `Job.findAll` with
`{minSalary: 0}` sends the statement without `WHERE` clause, and returns a job whose
salary is `NULL`, which is not a salary of at least `0`. -/
theorem findAll_minSalary_zero_counterexample :
    Job.findAllQuery [("minSalary", .num 0)] = (selectJobs ++ " ORDER BY id", []) ∧
    Job.findAll (jobsDb exampleServer) (some [("minSalary", .num 0)])
        [⟨1, "j1", none, none, "c1"⟩] =
      (.ok [⟨1, "j1", none, none, "c1"⟩], [⟨1, "j1", none, none, "c1"⟩]) ∧
    ¬ ∃ s : Int, (⟨1, "j1", none, none, "c1"⟩ : JobRow).salary = some s ∧ 0 ≤ s := by
  refine ⟨by decide, ?_, by simp⟩
  rw [findAll_jobsDb_of_no_effective _ _ _ (by decide)]
  rfl

/-- C6, amended: for every filters object whose minSalary is an integer other than
`0`, the statement of `Job.findAll` contains the predicate `salary >= $k` with
minSalary bound to `$k`, and on every table every row it returns is a row of the
table whose salary is at least minSalary; when minSalary fits the 32 bits of the
column the rows are returned, and the table is left as it was. -/
theorem findAll_minSalary (server : Server) (filters : JsObject) (n : Int)
    (table : List JobRow) (hn : filters.get "minSalary" = .num n) (h0 : n ≠ 0) :
    (∃ (k : Nat) (predicates : List String) (values : List JsValue),
      Job.findAllQuery filters =
        (selectJobs ++ " WHERE " ++ " AND ".intercalate predicates, values) ∧
      predicates[k]? = some ("salary >= $" ++ toString (k + 1)) ∧
      values[k]? = some (.num n)) ∧
    (∀ rows, (Job.findAll (jobsDb server) (some filters) table).1 = .ok rows →
      ∀ r ∈ rows, r ∈ table ∧ ∃ s, r.salary = some s ∧ n ≤ s) ∧
    (-2147483648 ≤ n ∧ n ≤ 2147483647 →
      ∃ rows, Job.findAll (jobsDb server) (some filters) table = (.ok rows, table)) := by
  have ht : (filters.get "minSalary").truthy = true := by
    rw [hn]; simpa [JsValue.truthy] using h0
  have ht' : (JsValue.num n).truthy = true := by simpa [JsValue.truthy] using h0
  have he := effectiveClauses_ne_nil_of_minSalary filters ht
  have hdb := findAll_jobsDb_of_effective server filters table he
  refine ⟨?_, ?_, ?_⟩
  · refine ⟨if (filters.get "title").truthy then 1 else 0,
      ((effectiveClauses filters).map Prod.fst).mapIdx fun k p => p ++ toString (k + 1),
      (effectiveClauses filters).map Prod.snd, findAllQuery_eq_whereQuery filters he, ?_, ?_⟩ <;>
    by_cases h1 : (filters.get "title").truthy = true <;>
    by_cases h3 : filters.get "hasEquity" = JsValue.str "true" <;>
    simp [effectiveClauses, h1, h3, ht', hn]
  · intro rows hrows r hr
    rw [hdb] at hrows
    split at hrows
    · simp at hrows
    · simp only [Except.ok.injEq] at hrows
      subst hrows
      rw [List.mem_filter] at hr
      exact ⟨hr.1, salary_of_selects server filters n r hn h0 hr.2⟩
  · intro hrange
    refine ⟨table.filter (Job.selects server filters), ?_⟩
    rw [hdb, if_neg]
    simp [hn, pgInteger, hrange]

/-! ### The `ILIKE` pattern of the title filter -/

theorem anyTail_iff (k : List Char → Bool) (t : List Char) :
    anyTail k t = true ↔ ∃ s u, t = s ++ u ∧ k u = true := by
  induction t with
  | nil =>
    simp only [anyTail]
    constructor
    · intro h
      exact ⟨[], [], rfl, h⟩
    · rintro ⟨s, u, hsu, hk⟩
      have hu : u = [] := by
        have hl := congrArg List.length hsu
        simp only [List.length_nil, List.length_append] at hl
        exact List.length_eq_zero.mp (by omega)
      rw [← hu]; exact hk
  | cons c t ih =>
    simp only [anyTail, Bool.or_eq_true, ih]
    constructor
    · rintro (h | ⟨s, u, hsu, hk⟩)
      · exact ⟨[], c :: t, rfl, h⟩
      · exact ⟨c :: s, u, by simp [hsu], hk⟩
    · rintro ⟨s, u, hsu, hk⟩
      cases s with
      | nil =>
        left
        simp only [List.nil_append] at hsu
        rw [hsu]; exact hk
      | cons d s =>
        right
        simp only [List.cons_append, List.cons.injEq] at hsu
        exact ⟨s, u, hsu.2, hk⟩

theorem likeItems_cons_plain (c : Char) (ps : List Char) (h : ¬ likeSpecial c) :
    likeItems (c :: ps) = .lit c :: likeItems ps := by
  simp only [likeSpecial, not_or] at h
  cases ps <;> simp [likeItems, h.1, h.2.1, h.2.2]

theorem likeItems_plain_append (p q : List Char) (hp : ∀ c ∈ p, ¬ likeSpecial c) :
    likeItems (p ++ q) = p.map .lit ++ likeItems q := by
  induction p with
  | nil => simp
  | cons c p ih =>
    rw [List.cons_append, likeItems_cons_plain c _ (hp c (List.mem_cons_self _ _)),
      ih (fun d hd => hp d (List.mem_cons_of_mem _ hd))]
    simp

theorem itemsMatch_anyRun (u : List Char) : itemsMatch [.anyRun] u = true := by
  rw [itemsMatch]
  induction u with
  | nil => simp [anyTail, itemsMatch]
  | cons c u ih => simp [anyTail, ih]

theorem itemsMatch_lit_append (p : List Char) (items : List LikeItem) (t : List Char) :
    itemsMatch (p.map .lit ++ items) t = true ↔
      ∃ u, t = p ++ u ∧ itemsMatch items u = true := by
  induction p generalizing t with
  | nil => simp
  | cons c p ih =>
    cases t with
    | nil => simp [itemsMatch]
    | cons d t =>
      have hstep : itemsMatch (List.map LikeItem.lit (c :: p) ++ items) (d :: t) =
          (c == d && itemsMatch (p.map .lit ++ items) t) := rfl
      rw [hstep]
      simp only [Bool.and_eq_true, beq_iff_eq, ih, List.cons_append, List.cons.injEq]
      constructor
      · rintro ⟨rfl, u, rfl, hu⟩
        exact ⟨u, ⟨rfl, rfl⟩, hu⟩
      · rintro ⟨u, ⟨rfl, rfl⟩, hu⟩
        exact ⟨rfl, u, rfl, hu⟩

theorem likeMatch_contains (p t : List Char) (hp : ∀ c ∈ p, ¬ likeSpecial c) :
    likeMatch ('%' :: (p ++ ['%'])) t = true ↔ p <:+: t := by
  have h : likeItems ('%' :: (p ++ ['%'])) = .anyRun :: (p.map .lit ++ [.anyRun]) := by
    have hrun : ∀ x, likeItems ('%' :: x) = .anyRun :: likeItems x := by
      intro x
      cases x <;> simp [likeItems]
    rw [hrun, likeItems_plain_append p _ hp, hrun]
    rfl
  rw [likeMatch, h, itemsMatch, anyTail_iff]
  constructor
  · rintro ⟨s, u, rfl, hu⟩
    obtain ⟨v, rfl, _⟩ := (itemsMatch_lit_append p _ u).mp hu
    exact ⟨s, v, by simp⟩
  · rintro ⟨s, v, rfl⟩
    exact ⟨s, p ++ v, by simp,
      (itemsMatch_lit_append p _ (p ++ v)).mpr ⟨v, rfl, itemsMatch_anyRun v⟩⟩

theorem toLower_not_special (c : Char) (h : ¬ likeSpecial c) : ¬ likeSpecial c.toLower := by
  unfold Char.toLower
  simp only
  split
  · rename_i hu
    obtain ⟨h1, h2⟩ := hu
    generalize c.toNat = n at h1 h2
    interval_cases n <;> decide
  · exact h

theorem toLower_keepsLikeSpecial : keepsLikeSpecial Char.toLower := by
  refine ⟨?_, toLower_not_special⟩
  rintro c (rfl | rfl | rfl) <;> decide

theorem latinLower_keepsLikeSpecial : keepsLikeSpecial latinServer.lower := by
  constructor
  · rintro c (rfl | rfl | rfl) <;> decide
  · intro c hc
    show ¬ likeSpecial (if c = Char.ofNat 201 then Char.ofNat 233 else c.toLower)
    split
    · decide
    · exact toLower_not_special c hc

theorem ilike_contains (lower : Char → Char) (hl : keepsLikeSpecial lower)
    (text t : String) (ht : ∀ c ∈ t.toList, ¬ likeSpecial c) :
    ilike lower text ("%" ++ t ++ "%") = true ↔ containsIgnoreCase lower text t := by
  unfold ilike containsIgnoreCase
  have hpc : lower '%' = '%' := hl.1 '%' (Or.inl rfl)
  have hp : ("%" ++ t ++ "%").toList.map lower =
      '%' :: (t.toList.map lower ++ ['%']) := by
    simp [String.toList, hpc]
  rw [hp]
  apply likeMatch_contains
  intro c hc
  obtain ⟨d, hd, rfl⟩ := List.mem_map.mp hc
  exact hl.2 d (ht d hd)

theorem title_of_selects (server : Server) (hl : keepsLikeSpecial server.lower)
    (filters : JsObject) (t : String) (r : JobRow)
    (ht : filters.get "title" = .str t) (hplain : ∀ c ∈ t.toList, ¬ likeSpecial c)
    (h : Job.selects server filters r = true) :
    containsIgnoreCase server.lower r.title t := by
  by_cases he : t = ""
  · subst he
    exact List.nil_infix
  · have htr : (JsValue.str t).truthy = true := by simpa [JsValue.truthy] using he
    simp only [Job.selects, ht, htr, Bool.not_true, Bool.false_or, Bool.and_eq_true] at h
    exact (ilike_contains server.lower hl r.title t hplain).mp h.1.1

/-- C7, as the claim states it, fails for a title filter with a wildcard of `ILIKE`:
with the filter `_` the job titled `j1` is returned, and `j1` does not contain `_`. -/
theorem findAll_title_wildcard_counterexample :
    Job.findAll (jobsDb exampleServer) (some [("title", .str "_")])
        [⟨1, "j1", some 100000, some ⟨0, 0⟩, "c1"⟩] =
      (.ok [⟨1, "j1", some 100000, some ⟨0, 0⟩, "c1"⟩],
        [⟨1, "j1", some 100000, some ⟨0, 0⟩, "c1"⟩]) ∧
    ¬ containsIgnoreCase exampleServer.lower "j1" "_" := by
  constructor
  · rw [findAll_jobsDb_of_effective _ _ _ (by decide)]
    decide
  · decide

/-- C7, amended: for every title filter string without the characters `%`, `_`
and backslash, and every table, `Job.findAll` with that title filter returns only
rows of the table whose title contains the filter string as a substring, compared
without regard to case, that is after the lower-casing of the server's locale (which
changes letters only); a non-empty filter is bound as the `ILIKE` pattern
`%<title>%` to `$1`; and with the title filter alone it returns exactly those rows. -/
theorem findAll_title (server : Server) (filters : JsObject) (t : String)
    (table : List JobRow) (hl : keepsLikeSpecial server.lower)
    (ht : filters.get "title" = .str t) (hplain : ∀ c ∈ t.toList, ¬ likeSpecial c) :
    (t ≠ "" → ∃ (predicates : List String) (values : List JsValue),
      Job.findAllQuery filters =
        (selectJobs ++ " WHERE " ++ " AND ".intercalate predicates, values) ∧
      predicates[0]? = some "title ILIKE $1" ∧
      values[0]? = some (.str ("%" ++ t ++ "%"))) ∧
    (∀ rows, (Job.findAll (jobsDb server) (some filters) table).1 = .ok rows →
      ∀ r ∈ rows, r ∈ table ∧ containsIgnoreCase server.lower r.title t) ∧
    (∃ rows, Job.findAll (jobsDb server) (some [("title", .str t)]) table = (.ok rows, table) ∧
      ∀ r, r ∈ rows ↔ r ∈ table ∧ containsIgnoreCase server.lower r.title t) := by
  refine ⟨?_, ?_, ?_⟩
  · intro hne
    have htr : (JsValue.str t).truthy = true := by simpa [JsValue.truthy] using hne
    have he : effectiveClauses filters ≠ [] := by simp [effectiveClauses, ht, htr]
    refine ⟨((effectiveClauses filters).map Prod.fst).mapIdx fun k p => p ++ toString (k + 1),
      (effectiveClauses filters).map Prod.snd, findAllQuery_eq_whereQuery filters he, ?_, ?_⟩
    · simp [effectiveClauses, ht, htr]
      rfl
    · simp [effectiveClauses, ht, htr, JsValue.toStr]
  · intro rows hrows r hr
    by_cases he : effectiveClauses filters = []
    · rw [findAll_jobsDb_of_no_effective server filters table he] at hrows
      simp only [Except.ok.injEq] at hrows
      subst hrows
      refine ⟨(List.perm_insertionSort _ _).subset hr, ?_⟩
      have : t = "" := by
        by_contra hne
        have htr : (JsValue.str t).truthy = true := by simpa [JsValue.truthy] using hne
        simp [effectiveClauses, ht, htr] at he
      subst this
      exact List.nil_infix
    · rw [findAll_jobsDb_of_effective server filters table he] at hrows
      split at hrows
      · simp at hrows
      · simp only [Except.ok.injEq] at hrows
        subst hrows
        rw [List.mem_filter] at hr
        exact ⟨hr.1, title_of_selects server hl filters t r ht hplain hr.2⟩
  · have hg1 : JsObject.get [("title", JsValue.str t)] "title" = .str t := by
      simp [JsObject.get, List.lookup]
    have hg2 : JsObject.get [("title", JsValue.str t)] "minSalary" = .undefined := by
      simp [JsObject.get, List.lookup, objectPrototype]
    have hg3 : JsObject.get [("title", JsValue.str t)] "hasEquity" = .undefined := by
      simp [JsObject.get, List.lookup, objectPrototype]
    by_cases hne : t = ""
    · subst hne
      refine ⟨table.insertionSort JobRow.le,
        findAll_jobsDb_of_no_effective server _ table (by decide), ?_⟩
      intro r
      constructor
      · intro hr
        exact ⟨(List.perm_insertionSort _ _).subset hr, List.nil_infix⟩
      · intro hr
        exact (List.perm_insertionSort _ _).symm.subset hr.1
    · have htr : (JsValue.str t).truthy = true := by simpa [JsValue.truthy] using hne
      have he : effectiveClauses [("title", JsValue.str t)] ≠ [] := by
        simp [effectiveClauses, hg1, htr]
      refine ⟨table.filter (Job.selects server [("title", .str t)]), ?_, ?_⟩
      · rw [findAll_jobsDb_of_effective server _ table he, if_neg]
        simp [hg2, JsValue.truthy]
      · intro r
        rw [List.mem_filter]
        have hs : Job.selects server [("title", .str t)] r =
            ilike server.lower r.title ("%" ++ t ++ "%") := by
          simp [Job.selects, hg1, hg2, hg3, htr, JsValue.truthy, JsValue.toStr, hne]
        rw [hs, ilike_contains server.lower hl r.title t hplain]

theorem decimal_zero_lt (e : Decimal) : Decimal.lt ⟨0, 0⟩ e = true ↔ 0 < e.toRat := by
  have h10 : (0 : ℚ) < (10 : ℚ) ^ e.scale := by positivity
  simp only [Decimal.lt, Decimal.toRat, decide_eq_true_eq, zero_mul, pow_zero, mul_one]
  rw [div_pos_iff_of_pos_right h10]
  exact Int.cast_pos.symm

theorem equity_of_selects (server : Server) (filters : JsObject) (r : JobRow)
    (he : filters.get "hasEquity" = .str "true")
    (h : Job.selects server filters r = true) :
    ∃ e, r.equity = some e ∧ 0 < e.toRat := by
  obtain ⟨_, _, _, equity, _⟩ := r
  simp only [Job.selects, he, decide_True, Bool.not_true, Bool.false_or, Bool.and_eq_true] at h
  cases equity with
  | none => simp at h
  | some e => exact ⟨e, rfl, (decimal_zero_lt e).mp h.2⟩

/-- C8: `Job.findAll` adds the predicate `equity > $k`, with the value `0` bound to
`$k`, exactly when hasEquity is the string `"true"`, and then every row it returns
is a row of the table with an equity above `0`; for every other value of hasEquity
(absent, `"false"`, the boolean `true`, any other string) its predicates are those
of the title and minSalary filters only, with one bound value each. -/
theorem findAll_hasEquity (server : Server) (filters : JsObject)
    (table : List JobRow) :
    ((∃ p ∈ (Job.findAllFilters filters).2, "equity".toList <+: p.toList) ↔
      filters.get "hasEquity" = .str "true") ∧
    (filters.get "hasEquity" = .str "true" →
      (∃ (k : Nat) (predicates : List String) (values : List JsValue),
        Job.findAllQuery filters =
          (selectJobs ++ " WHERE " ++ " AND ".intercalate predicates, values) ∧
        predicates.length = k + 1 ∧ values.length = k + 1 ∧
        predicates[k]? = some ("equity > $" ++ toString (k + 1)) ∧
        values[k]? = some (.num 0)) ∧
      (∀ rows, (Job.findAll (jobsDb server) (some filters) table).1 = .ok rows →
        ∀ r ∈ rows, r ∈ table ∧ ∃ e, r.equity = some e ∧ 0 < e.toRat)) ∧
    (filters.get "hasEquity" ≠ .str "true" →
      (Job.findAllFilters filters).1.length = (Job.findAllFilters filters).2.length ∧
      ∀ p ∈ (Job.findAllFilters filters).2,
        p = "title ILIKE $1" ∨ p = "salary >= $1" ∨ p = "salary >= $2") := by
  refine ⟨?_, ?_, ?_⟩
  · unfold Job.findAllFilters
    by_cases h1 : (filters.get "title").truthy = true <;>
    by_cases h2 : (filters.get "minSalary").truthy = true <;>
    by_cases h3 : filters.get "hasEquity" = JsValue.str "true" <;>
    simp [h1, h2, h3]
  · intro h3
    have he : effectiveClauses filters ≠ [] := by simp [effectiveClauses, h3]
    refine ⟨⟨(effectiveClauses filters).length - 1,
      ((effectiveClauses filters).map Prod.fst).mapIdx fun k p => p ++ toString (k + 1),
      (effectiveClauses filters).map Prod.snd, findAllQuery_eq_whereQuery filters he, ?_⟩, ?_⟩
    · by_cases h1 : (filters.get "title").truthy = true <;>
      by_cases h2 : (filters.get "minSalary").truthy = true <;>
      simp [effectiveClauses, h1, h2, h3]
    · intro rows hrows r hr
      rw [findAll_jobsDb_of_effective server filters table he] at hrows
      split at hrows
      · simp at hrows
      · simp only [Except.ok.injEq] at hrows
        subst hrows
        rw [List.mem_filter] at hr
        exact ⟨hr.1, equity_of_selects server filters r h3 hr.2⟩
  · intro h3
    unfold Job.findAllFilters
    by_cases h1 : (filters.get "title").truthy = true <;>
    by_cases h2 : (filters.get "minSalary").truthy = true <;>
    simp [h1, h2, h3] <;> decide

/-! ## Properties of `Job.get`, `Job.update` and `Job.remove` -/

/-- C9: for every id, `Job.get`, `Job.update` (with non-empty data) and
`Job.remove` each fail with a `NotFoundError` when the storage returns no row for
their statement, and do not fail when it returns rows: `get` and `update` return the
first of them and `remove` returns nothing. A rejection by the storage is passed
on unchanged. -/
theorem get_update_remove_notFound {σ ρ : Type} (db : Db σ ρ) (id : JsValue)
    (data : JsObject) (s s' : σ) (hdata : data ≠ []) :
    ((db.query selectJobById [id] s = (.ok [], s') →
        Job.get db id s = (.error (.notFound ("No job: " ++ id.toStr)), s')) ∧
      (∀ row rows, db.query selectJobById [id] s = (.ok (row :: rows), s') →
        Job.get db id s = (.ok row, s')) ∧
      (∀ e, db.query selectJobById [id] s = (.error e, s') →
        Job.get db id s = (.error e, s'))) ∧
    (∃ setCols, sqlForPartialUpdate data [] = .ok ⟨setCols, data.values⟩ ∧
      (db.query (updateJobSql setCols ("$" ++ toString (data.length + 1)))
          (data.values ++ [id]) s = (.ok [], s') →
        Job.update db id data s = (.error (.notFound ("No job: " ++ id.toStr)), s')) ∧
      (∀ row rows, db.query (updateJobSql setCols ("$" ++ toString (data.length + 1)))
          (data.values ++ [id]) s = (.ok (row :: rows), s') →
        Job.update db id data s = (.ok row, s')) ∧
      (∀ e, db.query (updateJobSql setCols ("$" ++ toString (data.length + 1)))
          (data.values ++ [id]) s = (.error e, s') →
        Job.update db id data s = (.error e, s'))) ∧
    ((db.query deleteJobById [id] s = (.ok [], s') →
        Job.remove db id s = (.error (.notFound ("No job: " ++ id.toStr)), s')) ∧
      (∀ row rows, db.query deleteJobById [id] s = (.ok (row :: rows), s') →
        Job.remove db id s = (.ok (), s')) ∧
      (∀ e, db.query deleteJobById [id] s = (.error e, s') →
        Job.remove db id s = (.error e, s'))) := by
  refine ⟨⟨?_, ?_, ?_⟩, ⟨_, sqlForPartialUpdate_of_ne_nil data [] hdata, ?_, ?_, ?_⟩,
    ⟨?_, ?_, ?_⟩⟩
  · intro h; simp [Job.get, h]
  · intro row rows h; simp [Job.get, h]
  · intro e h; simp [Job.get, h]
  · intro h
    simp only [Job.update, sqlForPartialUpdate_of_ne_nil data [] hdata]
    simp only [JsObject.values] at h ⊢
    simp [h]
  · intro row rows h
    simp only [Job.update, sqlForPartialUpdate_of_ne_nil data [] hdata]
    simp only [JsObject.values] at h ⊢
    simp [h]
  · intro e h
    simp only [Job.update, sqlForPartialUpdate_of_ne_nil data [] hdata]
    simp only [JsObject.values] at h ⊢
    simp [h]
  · intro h; simp [Job.remove, h]
  · intro row rows h; simp [Job.remove, h]
  · intro e h; simp [Job.remove, h]

theorem update_journal {ρ : Type} (respond : String → List JsValue → Except JsError (List ρ))
    (id : JsValue) (data : JsObject) (journal : List (String × List JsValue))
    (hne : data ≠ []) :
    (Job.update (journalDb respond) id data journal).2 =
      journal ++ [(updateJobSql (", ".intercalate (data.keys.mapIdx (assignment [])))
        ("$" ++ toString (data.length + 1)), data.values ++ [id])] := by
  simp only [Job.update, sqlForPartialUpdate_of_ne_nil data [] hne, journalDb]
  have hvl : (JsObject.values data).length = data.length := by simp [JsObject.values]
  rw [hvl]
  cases respond (updateJobSql (", ".intercalate (data.keys.mapIdx (assignment [])))
      ("$" ++ toString (data.length + 1))) (data.values ++ [id]) with
  | error e => rfl
  | ok rows => cases rows <;> rfl

/-- C10: the code at the data `{constructor: 1}`. `Job.update` sends one `UPDATE`
with the bound values `[1, id]`, but the column of its assignment is the text of the
function that `{}` inherits under the name `constructor`, where the claim has the
field name itself: the read `jsToSql[colName]` does not tell an own property of the
alias mapping from an inherited one. -/
theorem update_inherited_field :
    (Job.update (journalDb fun _ _ => .ok ([] : List JobRow)) (.num 1)
        [("constructor", .num 1)] []).2 =
      [(updateJobSql "\"function Object() \x7b [native code] \x7d\"=$1" "$2",
        [.num 1, .num 1])] ∧
    (Job.update (journalDb fun _ _ => .ok ([] : List JobRow)) (.num 1)
        [("constructor", .num 1)] []).2 ≠
      [(updateJobSql "\"constructor\"=$1" "$2", [.num 1, .num 1])] := by
  constructor <;> decide

/-! ## The empty update, and the values of an update -/

/-- C11: for every id, `Job.update` with an empty data mapping fails with the
`BadRequestError` of `sqlForPartialUpdate`, not with a `NotFoundError`, and it fails
before any statement is sent: whatever the storage handle, the state of the storage
is the one before the call, the journal of statements gains no entry and the jobs
table is unchanged. -/
theorem update_empty_badRequest {σ ρ : Type} (db : Db σ ρ) (id : JsValue) (s : σ) :
    Job.update db id [] s = (.error (.badRequest "No data"), s) ∧
    (∀ message, (Job.update db id [] s).1 ≠ .error (.notFound message)) ∧
    (∀ (respond : String → List JsValue → Except JsError (List ρ))
      (journal : List (String × List JsValue)),
      (Job.update (journalDb respond) id [] journal).2 = journal) ∧
    (∀ (server : Server) (table : List JobRow),
      Job.update (jobsDb server) id [] table = (.error (.badRequest "No data"), table)) := by
  refine ⟨rfl, ?_, fun _ _ => rfl, fun _ _ => rfl⟩
  intro message h
  have h1 : (Job.update db id [] s).1 = .error (.badRequest "No data") := rfl
  rw [h1] at h
  exact JsError.noConfusion (Except.error.inj h)

theorem keys_eq_nil_iff (data : JsObject) : data.keys = [] ↔ data = [] := by
  simp [JsObject.keys]

/-- C12: for every alias mapping and every two data mappings with the same field
names in the same order, `sqlForPartialUpdate` returns the same `setCols` text, or
fails for both: `setCols` is made from the field names and the alias mapping alone,
and the values are returned as they are in `values`. The statement that `Job.update`
sends is then the same text for both, with the values among its bound values. -/
theorem sqlForPartialUpdate_values_independent (jsToSql first second : JsObject)
    (hkeys : first.keys = second.keys) :
    (sqlForPartialUpdate first jsToSql).map (fun r => r.setCols) =
      (sqlForPartialUpdate second jsToSql).map (fun r => r.setCols) ∧
    (∀ r, sqlForPartialUpdate first jsToSql = .ok r →
      r.setCols = ", ".intercalate (first.keys.mapIdx fun idx colName =>
        "\"" ++ columnName jsToSql colName ++ "\"=$" ++ toString (idx + 1)) ∧
      r.values = first.map Prod.snd) ∧
    (first ≠ [] → ∀ (id : JsValue) (ρ : Type)
      (respond : String → List JsValue → Except JsError (List ρ))
      (journal : List (String × List JsValue)),
      ∃ text : String,
        (Job.update (journalDb respond) id first journal).2 =
          journal ++ [(text, first.map Prod.snd ++ [id])] ∧
        (Job.update (journalDb respond) id second journal).2 =
          journal ++ [(text, second.map Prod.snd ++ [id])]) := by
  by_cases h1 : first = []
  · have h2 : second = [] := by
      rw [← keys_eq_nil_iff, ← hkeys, keys_eq_nil_iff]
      exact h1
    subst h1 h2
    refine ⟨rfl, ?_, fun h => absurd rfl h⟩
    intro r hr
    exact Except.noConfusion hr
  · have h2 : second ≠ [] := by
      intro h
      apply h1
      rw [← keys_eq_nil_iff, hkeys, keys_eq_nil_iff]
      exact h
    have hlen : first.length = second.length := by
      have := congrArg List.length hkeys
      simpa [JsObject.keys] using this
    refine ⟨?_, ?_, ?_⟩
    · rw [sqlForPartialUpdate_of_ne_nil first jsToSql h1,
        sqlForPartialUpdate_of_ne_nil second jsToSql h2, hkeys]
      rfl
    · intro r hr
      rw [sqlForPartialUpdate_of_ne_nil first jsToSql h1] at hr
      cases hr
      exact ⟨rfl, rfl⟩
    · intro _ id ρ respond journal
      refine ⟨_, update_journal respond id first journal h1, ?_⟩
      rw [update_journal respond id second journal h2, hkeys, hlen]
      rfl

theorem sqlForPartialUpdate_values_independent_witness :
    nullFields.keys = injectionFields.keys ∧
    (sqlForPartialUpdate nullFields [] = .ok ⟨"\"salary\"=$1, \"equity\"=$2", [.null, .null]⟩ ∧
      sqlForPartialUpdate injectionFields [] =
        .ok ⟨"\"salary\"=$1, \"equity\"=$2", [.num 5, .str "\"; DROP TABLE jobs; --"]⟩) ∧
    (sqlForPartialUpdate nullFields []).map (fun r => r.setCols) =
      (sqlForPartialUpdate injectionFields []).map (fun r => r.setCols) ∧
    ∃ text : String,
      (Job.update (journalDb fun _ _ => .ok ([] : List JobRow)) (.num 1) nullFields []).2 =
        [] ++ [(text, nullFields.map Prod.snd ++ [.num 1])] ∧
      (Job.update (journalDb fun _ _ => .ok ([] : List JobRow)) (.num 1) injectionFields
          []).2 =
        [] ++ [(text, injectionFields.map Prod.snd ++ [.num 1])] :=
  ⟨by decide, ⟨by decide, by decide⟩,
    (sqlForPartialUpdate_values_independent [] nullFields injectionFields (by decide)).1,
    (sqlForPartialUpdate_values_independent [] nullFields injectionFields (by decide)).2.2
      (by decide) (.num 1) JobRow (fun _ _ => .ok []) []⟩

/-! ## Instances on the data of the test suite -/

theorem findAll_minSalary_witness :
    (∃ (k : Nat) (predicates : List String) (values : List JsValue),
      Job.findAllQuery minSalaryFilters =
        (selectJobs ++ " WHERE " ++ " AND ".intercalate predicates, values) ∧
      predicates[k]? = some ("salary >= $" ++ toString (k + 1)) ∧
      values[k]? = some (.num (95000 : Int))) ∧
    (∀ rows, (Job.findAll (jobsDb exampleServer) (some minSalaryFilters) exampleJobs).1 = .ok rows →
      ∀ r ∈ rows, r ∈ exampleJobs ∧ ∃ s, r.salary = some s ∧ (95000 : Int) ≤ s) ∧
    (-2147483648 ≤ (95000 : Int) ∧ (95000 : Int) ≤ 2147483647 →
      ∃ rows, Job.findAll (jobsDb exampleServer) (some minSalaryFilters) exampleJobs = (.ok rows, exampleJobs)) :=
  findAll_minSalary exampleServer minSalaryFilters 95000 exampleJobs (by decide) (by decide)

theorem findAll_title_witness :
    (("J1" ≠ "" → ∃ (predicates : List String) (values : List JsValue),
        Job.findAllQuery titleFilters =
          (selectJobs ++ " WHERE " ++ " AND ".intercalate predicates, values) ∧
        predicates[0]? = some "title ILIKE $1" ∧
        values[0]? = some (.str ("%" ++ "J1" ++ "%"))) ∧
      (∀ rows, (Job.findAll (jobsDb exampleServer) (some titleFilters) exampleJobs).1 =
          .ok rows →
        ∀ r ∈ rows, r ∈ exampleJobs ∧ containsIgnoreCase exampleServer.lower r.title "J1") ∧
      (∃ rows, Job.findAll (jobsDb exampleServer) (some [("title", .str "J1")]) exampleJobs =
          (.ok rows, exampleJobs) ∧
        ∀ r, r ∈ rows ↔
          r ∈ exampleJobs ∧ containsIgnoreCase exampleServer.lower r.title "J1")) ∧
    (Job.findAll (jobsDb latinServer) (some latinFilters) latinJobs).1 =
      .ok [⟨1, "Élan", some 50000, none, "c1"⟩] ∧
    ∃ rows, Job.findAll (jobsDb latinServer) (some [("title", .str "é")]) latinJobs =
        (.ok rows, latinJobs) ∧
      ∀ r, r ∈ rows ↔ r ∈ latinJobs ∧ containsIgnoreCase latinServer.lower r.title "é" :=
  ⟨findAll_title exampleServer titleFilters "J1" exampleJobs toLower_keepsLikeSpecial
      (by decide) (by decide),
    by decide,
    (findAll_title latinServer latinFilters "é" latinJobs latinLower_keepsLikeSpecial
      (by decide) (by decide)).2.2⟩

theorem findAll_hasEquity_witness :
    hasEquityFilters.get "hasEquity" = .str "true" ∧
    (∃ (k : Nat) (predicates : List String) (values : List JsValue),
      Job.findAllQuery hasEquityFilters =
        (selectJobs ++ " WHERE " ++ " AND ".intercalate predicates, values) ∧
      predicates.length = k + 1 ∧ values.length = k + 1 ∧
      predicates[k]? = some ("equity > $" ++ toString (k + 1)) ∧
      values[k]? = some (.num 0)) ∧
    (∀ rows, (Job.findAll (jobsDb exampleServer) (some hasEquityFilters) exampleJobs).1 =
        .ok rows →
      ∀ r ∈ rows, r ∈ exampleJobs ∧ ∃ e, r.equity = some e ∧ 0 < e.toRat) :=
  ⟨by decide,
    (findAll_hasEquity exampleServer hasEquityFilters exampleJobs).2.1 (by decide)⟩

theorem get_update_remove_notFound_witness :
    nullFields ≠ [] ∧
    Job.get (jobsDb exampleServer) (.num 7) exampleJobs =
      (.error (.notFound "No job: 7"), exampleJobs) ∧
    Job.get (jobsDb exampleServer) (.num 3) exampleJobs =
      (.ok ⟨3, "j3", some 80000, some ⟨3, 1⟩, "c3"⟩, exampleJobs) ∧
    Job.remove (jobsDb exampleServer) (.num 7) exampleJobs =
      (.error (.notFound "No job: 7"), exampleJobs) ∧
    Job.remove (jobsDb exampleServer) (.num 4) exampleJobs =
      (.ok (), exampleJobs.take 3) ∧
    Job.update (jobsDb exampleServer) (.num 7) nullFields exampleJobs =
      (.error (.notFound "No job: 7"), exampleJobs) ∧
    Job.update (jobsDb exampleServer) (.num 1) nullFields exampleJobs =
      (.ok ⟨1, "j1", none, none, "c1"⟩,
        ⟨1, "j1", none, none, "c1"⟩ :: exampleJobs.drop 1) :=
  ⟨by decide,
    (get_update_remove_notFound (jobsDb exampleServer) (.num 7) nullFields exampleJobs
      exampleJobs (by decide)).1.1 (by decide),
    (get_update_remove_notFound (jobsDb exampleServer) (.num 3) nullFields exampleJobs
      exampleJobs (by decide)).1.2.1 _ [] (by decide),
    (get_update_remove_notFound (jobsDb exampleServer) (.num 7) nullFields exampleJobs
      exampleJobs (by decide)).2.2.1 (by decide),
    (get_update_remove_notFound (jobsDb exampleServer) (.num 4) nullFields exampleJobs
      (exampleJobs.take 3) (by decide)).2.2.2.1 ⟨4, "j4", none, none, "c1"⟩ [] (by decide),
    by
      obtain ⟨setCols, hs, h, _, _⟩ :=
        (get_update_remove_notFound (jobsDb exampleServer) (.num 7) nullFields exampleJobs
          exampleJobs (by decide)).2.1
      have h0 : sqlForPartialUpdate nullFields [] =
          .ok ⟨"\"salary\"=$1, \"equity\"=$2", nullFields.values⟩ := by decide
      rw [h0] at hs
      obtain rfl := congrArg SqlUpdate.setCols (Except.ok.inj hs)
      exact h (by decide),
    by
      obtain ⟨setCols, hs, _, h, _⟩ :=
        (get_update_remove_notFound (jobsDb exampleServer) (.num 1) nullFields exampleJobs
          (⟨1, "j1", none, none, "c1"⟩ :: exampleJobs.drop 1) (by decide)).2.1
      have h0 : sqlForPartialUpdate nullFields [] =
          .ok ⟨"\"salary\"=$1, \"equity\"=$2", nullFields.values⟩ := by decide
      rw [h0] at hs
      obtain rfl := congrArg SqlUpdate.setCols (Except.ok.inj hs)
      exact h ⟨1, "j1", none, none, "c1"⟩ [] (by decide)⟩

end Jobly
